import Mathlib

/-!
Shallow embedding of the core request-construction / signing / configuration
subsystem of the `timesys` client library (`src/lib/timesys/core/llapi.py`),
together with theorems settling the specification claims.

Python strings are modelled as Lean `String`s compared by code point (which is
Python's string ordering); byte strings are `List Nat` with entries `< 256`.
Parameter values passed to the API are modelled by the `Value` type below:
strings, integers, and sequences of scalars (the value domain the library is
actually used with; Python would also accept other types).
-/

namespace Timesys

/-- A Python scalar parameter value: a string or an integer. -/
inductive Scalar where
  | str (s : String)
  | int (n : Int)
deriving DecidableEq, Repr

/-- A Python parameter value: a scalar, or a sequence (list/tuple) of scalars. -/
inductive Value where
  | scalar (c : Scalar)
  | seq (xs : List Scalar)
deriving DecidableEq, Repr

/-! ### String ordering (Python compares strings by code point, lexicographically) -/

/-- Lexicographic strict order on char lists by code point, as Python compares
strings. -/
def ltCP : List Char → List Char → Bool
  | _, [] => false
  | [], _ :: _ => true
  | a :: as, b :: bs => decide (a.toNat < b.toNat) || (a = b && ltCP as bs)

/-- Strict order on strings by code point (Python `<` on `str`). -/
def strLt (a b : String) : Bool := ltCP a.data b.data

theorem ltCP_irrefl (l : List Char) : ltCP l l = false := by
  induction l with
  | nil => rfl
  | cons a as ih => simp [ltCP, ih]

theorem ltCP_asymm {l₁ l₂ : List Char} (h₁ : ltCP l₁ l₂ = true)
    (h₂ : ltCP l₂ l₁ = true) : False := by
  induction l₁ generalizing l₂ with
  | nil => cases l₂ <;> simp [ltCP] at h₁ h₂
  | cons a as ih =>
    cases l₂ with
    | nil => simp [ltCP] at h₁
    | cons b bs =>
      simp [ltCP] at h₁ h₂
      rcases h₁ with h₁ | ⟨hab, h₁⟩
      · rcases h₂ with h₂ | ⟨hba, h₂⟩
        · omega
        · subst hba; omega
      · subst hab
        rcases h₂ with h₂ | ⟨_, h₂⟩
        · omega
        · exact ih h₁ h₂

theorem ltCP_trans {l₁ l₂ l₃ : List Char} (h₁ : ltCP l₁ l₂ = true)
    (h₂ : ltCP l₂ l₃ = true) : ltCP l₁ l₃ = true := by
  induction l₁ generalizing l₂ l₃ with
  | nil =>
    cases l₃ with
    | nil => cases l₂ <;> simp [ltCP] at h₁ h₂
    | cons c cs => simp [ltCP]
  | cons a as ih =>
    cases l₂ with
    | nil => simp [ltCP] at h₁
    | cons b bs =>
      cases l₃ with
      | nil => simp [ltCP] at h₂
      | cons c cs =>
        simp [ltCP] at h₁ h₂ ⊢
        rcases h₁ with h₁ | ⟨hab, h₁⟩
        · rcases h₂ with h₂ | ⟨hbc, h₂⟩
          · exact Or.inl (by omega)
          · subst hbc; exact Or.inl h₁
        · subst hab
          rcases h₂ with h₂ | ⟨hbc, h₂⟩
          · exact Or.inl h₂
          · subst hbc; exact Or.inr ⟨rfl, ih h₁ h₂⟩

theorem ltCP_total {l₁ l₂ : List Char} (h : l₁ ≠ l₂) :
    ltCP l₁ l₂ = true ∨ ltCP l₂ l₁ = true := by
  induction l₁ generalizing l₂ with
  | nil =>
    cases l₂ with
    | nil => exact absurd rfl h
    | cons b bs => exact Or.inl rfl
  | cons a as ih =>
    cases l₂ with
    | nil => exact Or.inr rfl
    | cons b bs =>
      by_cases hab : a = b
      · subst hab
        have hne : as ≠ bs := fun hh => h (by rw [hh])
        rcases ih hne with h' | h'
        · exact Or.inl (by simp [ltCP, h'])
        · exact Or.inr (by simp [ltCP, h'])
      · have : a.toNat ≠ b.toNat := fun hn => hab (Char.ext (UInt32.toNat.inj hn))
        rcases Nat.lt_or_ge a.toNat b.toNat with h' | h'
        · exact Or.inl (by simp [ltCP]; omega)
        · exact Or.inr (by simp [ltCP]; omega)

theorem strLt_asymm {a b : String} (h₁ : strLt a b = true)
    (h₂ : strLt b a = true) : False := ltCP_asymm h₁ h₂

theorem strLt_trans {a b c : String} (h₁ : strLt a b = true)
    (h₂ : strLt b c = true) : strLt a c = true := ltCP_trans h₁ h₂

theorem strLt_total {a b : String} (h : a ≠ b) :
    strLt a b = true ∨ strLt b a = true := by
  have : a.data ≠ b.data := by
    intro hd
    apply h
    cases a; cases b; simp_all
  exact ltCP_total this

/-! ### Ordering on parameter values

Python's `sorted` compares elements with `<`.  Integers compare numerically and
strings by code point.  Comparing values of different types raises `TypeError`
in Python; the comparators below extend the order totally across types (int <
str < sequence) so that sorting is defined everywhere — on the homogeneous
inputs the library is used with they agree with Python exactly. -/

/-- Non-strict comparison of scalars used when sorting sequence elements
(`sorted(obj)` in `_make_msg.sort_sequences`). -/
def Scalar.ble : Scalar → Scalar → Bool
  | .int m, .int n => decide (m ≤ n)
  | .int _, .str _ => true
  | .str _, .int _ => false
  | .str a, .str b => a = b || strLt a b

theorem Scalar.ble_antisymm : ∀ {a b : Scalar},
    ble a b = true → ble b a = true → a = b := by
  intro a b h₁ h₂
  rcases a with s | m <;> rcases b with t | n <;> simp [ble] at h₁ h₂ ⊢
  · rcases h₁ with h₁ | h₁
    · exact h₁
    · rcases h₂ with h₂ | h₂
      · exact h₂.symm
      · exact (strLt_asymm h₁ h₂).elim
  · omega

theorem Scalar.ble_trans : ∀ {a b c : Scalar},
    ble a b = true → ble b c = true → ble a c = true := by
  intro a b c h₁ h₂
  rcases a with s | m <;> rcases b with t | n <;> rcases c with u | p <;>
    simp [ble] at h₁ h₂ ⊢
  · rcases h₁ with h₁ | h₁
    · subst h₁; exact h₂
    · rcases h₂ with h₂ | h₂
      · subst h₂; exact Or.inr h₁
      · exact Or.inr (strLt_trans h₁ h₂)
  · omega

theorem Scalar.ble_total : ∀ (a b : Scalar), ble a b = true ∨ ble b a = true := by
  intro a b
  rcases a with s | m <;> rcases b with t | n <;> simp [ble]
  · by_cases h : s = t
    · exact Or.inl (Or.inl h)
    · rcases strLt_total h with h' | h'
      · exact Or.inl (Or.inr h')
      · exact Or.inr (Or.inr h')
  · omega

/-- Lexicographic comparison of scalar lists (Python list comparison). -/
def lexble : List Scalar → List Scalar → Bool
  | [], _ => true
  | _ :: _, [] => false
  | a :: as, b :: bs => if a = b then lexble as bs else Scalar.ble a b

theorem lexble_antisymm : ∀ {l₁ l₂ : List Scalar},
    lexble l₁ l₂ = true → lexble l₂ l₁ = true → l₁ = l₂ := by
  intro l₁
  induction l₁ with
  | nil => intro l₂ h₁ h₂; cases l₂ with
    | nil => rfl
    | cons b bs => simp [lexble] at h₂
  | cons a as ih =>
    intro l₂ h₁ h₂
    cases l₂ with
    | nil => simp [lexble] at h₁
    | cons b bs =>
      by_cases hab : a = b
      · subst hab
        simp [lexble] at h₁ h₂
        rw [ih h₁ h₂]
      · simp [lexble, hab, Ne.symm hab] at h₁ h₂
        exact absurd (Scalar.ble_antisymm h₁ h₂) hab

theorem lexble_trans : ∀ {l₁ l₂ l₃ : List Scalar},
    lexble l₁ l₂ = true → lexble l₂ l₃ = true → lexble l₁ l₃ = true := by
  intro l₁
  induction l₁ with
  | nil => intro l₂ l₃ _ _; rfl
  | cons a as ih =>
    intro l₂ l₃ h₁ h₂
    cases l₂ with
    | nil => simp [lexble] at h₁
    | cons b bs =>
      cases l₃ with
      | nil => simp [lexble] at h₂
      | cons c cs =>
        by_cases hab : a = b <;> by_cases hbc : b = c
        · subst hab; subst hbc
          simp [lexble] at h₁ h₂ ⊢
          exact ih h₁ h₂
        · subst hab
          simp [lexble, hbc] at h₁ h₂ ⊢
          exact h₂
        · subst hbc
          simp [lexble, hab] at h₁ h₂ ⊢
          exact h₁
        · simp [lexble, hab, hbc] at h₁ h₂
          by_cases hac : a = c
          · subst hac
            exact absurd (Scalar.ble_antisymm h₁ h₂) hab
          · simp [lexble, hac]
            exact Scalar.ble_trans h₁ h₂

theorem lexble_total : ∀ (l₁ l₂ : List Scalar),
    lexble l₁ l₂ = true ∨ lexble l₂ l₁ = true := by
  intro l₁
  induction l₁ with
  | nil => intro l₂; exact Or.inl rfl
  | cons a as ih =>
    intro l₂
    cases l₂ with
    | nil => exact Or.inr rfl
    | cons b bs =>
      by_cases hab : a = b
      · subst hab
        simpa [lexble] using ih bs
      · simpa [lexble, hab, Ne.symm hab] using Scalar.ble_total a b

/-- Non-strict comparison of parameter values (total extension of Python's
value comparison; only same-type comparisons occur in real use). -/
def Value.ble : Value → Value → Bool
  | .scalar a, .scalar b => a.ble b
  | .scalar _, .seq _ => true
  | .seq _, .scalar _ => false
  | .seq xs, .seq ys => lexble xs ys

theorem value_ble_antisymm : ∀ {a b : Value},
    Value.ble a b = true → Value.ble b a = true → a = b := by
  intro a b h₁ h₂
  cases a <;> cases b <;> simp [Value.ble] at h₁ h₂ ⊢
  · exact Scalar.ble_antisymm h₁ h₂
  · exact lexble_antisymm h₁ h₂

theorem value_ble_trans : ∀ {a b c : Value},
    Value.ble a b = true → Value.ble b c = true → Value.ble a c = true := by
  intro a b c h₁ h₂
  cases a <;> cases b <;> cases c <;> simp [Value.ble] at h₁ h₂ ⊢
  · exact Scalar.ble_trans h₁ h₂
  · exact lexble_trans h₁ h₂

theorem value_ble_total : ∀ (a b : Value),
    Value.ble a b = true ∨ Value.ble b a = true := by
  intro a b
  cases a <;> cases b <;> simp [Value.ble]
  · exact Scalar.ble_total _ _
  · exact lexble_total _ _

/-- Comparison of `(key, value)` parameter items: Python tuple comparison,
lexicographic on the key first (`sorted` in `_make_msg` and
`_prepare_request`). -/
def pairble (a b : String × Value) : Bool :=
  if a.1 = b.1 then Value.ble a.2 b.2 else strLt a.1 b.1

theorem pairble_antisymm : ∀ {a b : String × Value},
    pairble a b = true → pairble b a = true → a = b := by
  rintro ⟨ka, va⟩ ⟨kb, vb⟩ h₁ h₂
  by_cases hk : ka = kb
  · subst hk
    simp [pairble] at h₁ h₂
    rw [value_ble_antisymm h₁ h₂]
  · simp [pairble, hk, Ne.symm hk] at h₁ h₂
    exact (strLt_asymm h₁ h₂).elim

theorem pairble_trans : ∀ {a b c : String × Value},
    pairble a b = true → pairble b c = true → pairble a c = true := by
  rintro ⟨ka, va⟩ ⟨kb, vb⟩ ⟨kc, vc⟩ h₁ h₂
  by_cases hab : ka = kb <;> by_cases hbc : kb = kc
  · subst hab; subst hbc
    simp [pairble] at h₁ h₂ ⊢
    exact value_ble_trans h₁ h₂
  · subst hab
    simp [pairble, hbc] at h₁ h₂ ⊢
    exact h₂
  · subst hbc
    simp [pairble, hab] at h₁ h₂ ⊢
    exact h₁
  · simp [pairble, hab, hbc] at h₁ h₂
    by_cases hac : ka = kc
    · subst hac
      exact (strLt_asymm h₁ h₂).elim
    · simp [pairble, hac]
      exact strLt_trans h₁ h₂

theorem pairble_total : ∀ (a b : String × Value),
    pairble a b = true ∨ pairble b a = true := by
  rintro ⟨ka, va⟩ ⟨kb, vb⟩
  by_cases hk : ka = kb
  · subst hk
    simpa [pairble] using value_ble_total va vb
  · simpa [pairble, hk, Ne.symm hk] using strLt_total hk

/-- The sort relation on scalars (Python `sorted`'s comparison), as a
decidable proposition for `List.insertionSort`.  Python's sort is stable, but
with an antisymmetric total comparator stability is unobservable, so any
comparison sort models `sorted` exactly. -/
def sle (a b : Scalar) : Prop := Scalar.ble a b = true

instance : DecidableRel sle := fun a b => by unfold sle; infer_instance

instance : IsTotal Scalar sle := ⟨Scalar.ble_total⟩

instance : IsTrans Scalar sle := ⟨fun _ _ _ h₁ h₂ => Scalar.ble_trans h₁ h₂⟩

instance : IsAntisymm Scalar sle := ⟨fun _ _ h₁ h₂ => Scalar.ble_antisymm h₁ h₂⟩

/-- The sort relation on `(key, value)` items (Python tuple comparison). -/
def ple (a b : String × Value) : Prop := pairble a b = true

instance : DecidableRel ple := fun a b => by unfold ple; infer_instance

instance : IsTotal (String × Value) ple := ⟨pairble_total⟩

instance : IsTrans (String × Value) ple := ⟨fun _ _ _ h₁ h₂ => pairble_trans h₁ h₂⟩

instance : IsAntisymm (String × Value) ple :=
  ⟨fun _ _ h₁ h₂ => pairble_antisymm h₁ h₂⟩

/-! ### Byte strings and URL encoding

`urllib.parse.urlencode(..., doseq=True)` followed by
`urllib.parse.unquote_plus` is modelled at the byte level.  The output of
`urlencode` is pure ASCII, so Python's string-level `unquote_plus` coincides
with byte-level decoding here; the `%XX` triples it decodes always come from
quoting valid UTF-8, so the `errors="replace"` fallback of `unquote` never
fires on these inputs. -/

/-- UTF-8 encoding of one code point (`str.encode("utf-8")`, per character). -/
def utf8Bytes (c : Char) : List Nat :=
  let n := c.toNat
  if n < 128 then [n]
  else if n < 2048 then [192 + n / 64, 128 + n % 64]
  else if n < 65536 then [224 + n / 4096, 128 + (n / 64) % 64, 128 + n % 64]
  else [240 + n / 262144, 128 + (n / 4096) % 64, 128 + (n / 64) % 64, 128 + n % 64]

/-- UTF-8 bytes of a string (`str.encode("utf-8")`). -/
def strBytes (s : String) : List Nat := s.data.flatMap utf8Bytes

/-- Bytes that `urllib.parse.quote` leaves unescaped with `safe=''`:
ASCII letters, digits, and `_ . - ~`. -/
def isSafeByte (b : Nat) : Bool :=
  (65 ≤ b && b ≤ 90) || (97 ≤ b && b ≤ 122) || (48 ≤ b && b ≤ 57) ||
    b = 95 || b = 46 || b = 45 || b = 126

/-- Uppercase hex digit of a nibble, as CPython's `quote` emits. -/
def hexDigit (n : Nat) : Nat := if n < 10 then 48 + n else 55 + n

/-- `urllib.parse.quote_plus` with `safe=''` (the `urlencode` default):
safe bytes pass through, space becomes `+`, the rest become `%XX`. -/
def quotePlusBytes (bs : List Nat) : List Nat :=
  bs.flatMap fun b =>
    if isSafeByte b then [b]
    else if b = 32 then [43]
    else [37, hexDigit (b / 16), hexDigit (b % 16)]

/-- Is this byte an ASCII hex digit? -/
def isHexByte (b : Nat) : Bool :=
  (48 ≤ b && b ≤ 57) || (65 ≤ b && b ≤ 70) || (97 ≤ b && b ≤ 102)

/-- Value of an ASCII hex digit byte. -/
def hexVal (b : Nat) : Nat :=
  if b ≤ 57 then b - 48 else if b ≤ 70 then b - 55 else b - 87

/-- `urllib.parse.unquote_plus` at byte level: `+` becomes a space, a `%`
followed by two hex digits becomes that byte, anything else (including a
malformed `%`) passes through. -/
def unquotePlusBytes : List Nat → List Nat
  | [] => []
  | 43 :: rest => 32 :: unquotePlusBytes rest
  | 37 :: h :: l :: rest =>
    if isHexByte h && isHexByte l then
      (16 * hexVal h + hexVal l) :: unquotePlusBytes rest
    else 37 :: unquotePlusBytes (h :: l :: rest)
  | b :: rest => b :: unquotePlusBytes rest

/-- `str()` of a scalar value as `urlencode` applies it to each item. -/
def scalarStr : Scalar → String
  | .str s => s
  | .int n => toString n

/-- One `(key, value)` pair expanded by `urlencode(..., doseq=True)`:
a scalar yields one `key=str(value)` item, a sequence yields one item per
element, in sequence order. -/
def encodeItem (k : String) (v : Value) : List (String × String) :=
  match v with
  | .scalar c => [(k, scalarStr c)]
  | .seq xs => xs.map fun c => (k, scalarStr c)

/-- `urllib.parse.urlencode(items, doseq=True)` over an item list (already
ordered), producing the query-string bytes `k1=v1&k2=v2&...` with each key and
value quoted by `quote_plus`. -/
def urlencodeBytes (items : List (String × Value)) : List Nat :=
  List.intercalate [38] <|
    (items.flatMap fun kv => encodeItem kv.1 kv.2).map fun p =>
      quotePlusBytes (strBytes p.1) ++ [61] ++ quotePlusBytes (strBytes p.2)

/-! ### Canonical message builder (`LLAPI._make_msg`) -/

/-- Is this value a Python `str`?  (`isinstance(obj, str)`) -/
def Value.isStr : Value → Bool
  | .scalar (.str _) => true
  | _ => false

/-- Is this value a `collections.abc.Sequence`?  Python strings are Sequences,
which is why `_make_msg.sort_sequences` must test `str` first. -/
def Value.isSequence : Value → Bool
  | .scalar (.str _) => true
  | .scalar (.int _) => false
  | .seq _ => true

/-- `_make_msg.sort_sequences`: return strings and non-sequences unchanged,
sort the elements of any other sequence ascending (`sorted(obj)`). -/
def sort_sequences (obj : Value) : Value :=
  if obj.isStr || !obj.isSequence then obj
  else
    match obj with
    | .seq xs => .seq (List.insertionSort sle xs)
    | v => v

/-- `LLAPI._make_msg`: sort the `(key, sort_sequences(value))` items, URL-encode
them (`doseq=True`), percent-decode the result (`unquote_plus`), concatenate
`method ++ resource ++ args`, and encode as UTF-8 bytes. -/
def make_msg (method resource : String) (data : List (String × Value)) :
    List Nat :=
  let args := List.insertionSort ple (data.map fun kv => (kv.1, sort_sequences kv.2))
  let argBytes := unquotePlusBytes (urlencodeBytes args)
  strBytes method ++ strBytes resource ++ argBytes

/-! ### SHA-256, HMAC, base64 (`LLAPI._create_hmac`)

Machine words are `Nat` reduced modulo `2^32` explicitly. -/

/-- Truncate to a 32-bit word. -/
def w32 (n : Nat) : Nat := n % 4294967296

/-- Right rotation of a 32-bit word. -/
def rotr (x n : Nat) : Nat := w32 ((x >>> n) + (x <<< (32 - n)))

/-- The 64 SHA-256 round constants (FIPS 180-4), written in decimal. -/
def sha256K : List Nat :=
  [1116352408, 1899447441, 3049323471, 3921009573, 961987163, 1508970993,
   2453635748, 2870763221, 3624381080, 310598401, 607225278, 1426881987,
   1925078388, 2162078206, 2614888103, 3248222580, 3835390401, 4022224774,
   264347078, 604807628, 770255983, 1249150122, 1555081692, 1996064986,
   2554220882, 2821834349, 2952996808, 3210313671, 3336571891, 3584528711,
   113926993, 338241895, 666307205, 773529912, 1294757372, 1396182291,
   1695183700, 1986661051, 2177026350, 2456956037, 2730485921, 2820302411,
   3259730800, 3345764771, 3516065817, 3600352804, 4094571909, 275423344,
   430227734, 506948616, 659060556, 883997877, 958139571, 1322822218,
   1537002063, 1747873779, 1955562222, 2024104815, 2227730452, 2361852424,
   2428436474, 2756734187, 3204031479, 3329325298]

/-- The SHA-256 initial hash value (FIPS 180-4), written in decimal. -/
def sha256H0 : List Nat :=
  [1779033703, 3144134277, 1013904242, 2773480762,
   1359893119, 2600822924, 528734635, 1541459225]

/-- SHA-256 padding: append `0x80`, zero bytes to 56 mod 64, then the bit
length as 8 big-endian bytes. -/
def sha256pad (msg : List Nat) : List Nat :=
  let len := msg.length
  let zeros := (119 - len % 64) % 64
  let bitLen := len * 8
  msg ++ [128] ++ List.replicate zeros 0 ++
    (List.range 8).map fun i => (bitLen >>> (8 * (7 - i))) % 256

/-- Split a byte list into 64-byte blocks (fuel-recursive so that the kernel
can evaluate it; the fuel `l.length` always suffices since every step consumes
at least one byte). -/
def toBlocksFuel : Nat → List Nat → List (List Nat)
  | 0, _ => []
  | _, [] => []
  | fuel + 1, l => l.take 64 :: toBlocksFuel fuel (l.drop 64)

/-- Split a byte list into 64-byte blocks. -/
def toBlocks (l : List Nat) : List (List Nat) := toBlocksFuel l.length l

/-- Big-endian 32-bit words from bytes. -/
def bytesToWords : List Nat → List Nat
  | a :: b :: c :: d :: rest =>
    (a * 16777216 + b * 65536 + c * 256 + d) :: bytesToWords rest
  | _ => []

/-- Big-endian bytes from 32-bit words. -/
def wordsToBytes (ws : List Nat) : List Nat :=
  ws.flatMap fun w => [w >>> 24 % 256, w >>> 16 % 256, w >>> 8 % 256, w % 256]

/-- SHA-256 message schedule: extend 16 words to 64. -/
def msgSchedule (w16 : List Nat) : List Nat :=
  (List.range 48).foldl
    (fun w _ =>
      let n := w.length
      let s0 := rotr (w.getD (n - 15) 0) 7 ^^^ rotr (w.getD (n - 15) 0) 18 ^^^
        (w.getD (n - 15) 0 >>> 3)
      let s1 := rotr (w.getD (n - 2) 0) 17 ^^^ rotr (w.getD (n - 2) 0) 19 ^^^
        (w.getD (n - 2) 0 >>> 10)
      w ++ [w32 (s1 + w.getD (n - 7) 0 + s0 + w.getD (n - 16) 0)])
    w16

/-- One SHA-256 compression step for a word/constant pair. -/
def sha256Step (st : List Nat) (wk : Nat × Nat) : List Nat :=
  let a := st.getD 0 0
  let b := st.getD 1 0
  let c := st.getD 2 0
  let d := st.getD 3 0
  let e := st.getD 4 0
  let f := st.getD 5 0
  let g := st.getD 6 0
  let h := st.getD 7 0
  let S1 := rotr e 6 ^^^ rotr e 11 ^^^ rotr e 25
  let ch := (e &&& f) ^^^ ((4294967295 - e) &&& g)
  let temp1 := w32 (h + S1 + ch + wk.2 + wk.1)
  let S0 := rotr a 2 ^^^ rotr a 13 ^^^ rotr a 22
  let maj := (a &&& b) ^^^ (a &&& c) ^^^ (b &&& c)
  let temp2 := w32 (S0 + maj)
  [w32 (temp1 + temp2), a, b, c, w32 (d + temp1), e, f, g]

/-- SHA-256 compression of one 64-byte block into the running hash. -/
def sha256Compress (h : List Nat) (block : List Nat) : List Nat :=
  let w := msgSchedule (bytesToWords block)
  let st := (w.zip sha256K).foldl sha256Step h
  (h.zip st).map fun p => w32 (p.1 + p.2)

/-- SHA-256 of a byte list. -/
def sha256 (msg : List Nat) : List Nat :=
  wordsToBytes ((toBlocks (sha256pad msg)).foldl sha256Compress sha256H0)

/-- `hmac.digest(key, msg, hashlib.sha256)`. -/
def hmacSha256 (key msg : List Nat) : List Nat :=
  let k0 := if key.length > 64 then sha256 key else key
  let kp := k0 ++ List.replicate (64 - k0.length) 0
  let ipad := kp.map fun b => b ^^^ 54
  let opad := kp.map fun b => b ^^^ 92
  sha256 (opad ++ sha256 (ipad ++ msg))

/-- The base64 alphabet character (as a byte) at index `n`. -/
def b64Char (n : Nat) : Nat :=
  if n < 26 then 65 + n
  else if n < 52 then 71 + n
  else if n < 62 then n - 4
  else if n = 62 then 43
  else 47

/-- `base64.b64encode` over bytes. -/
def base64encode : List Nat → List Nat
  | a :: b :: c :: rest =>
    let n := a * 65536 + b * 256 + c
    b64Char (n >>> 18 % 64) :: b64Char (n >>> 12 % 64) ::
      b64Char (n >>> 6 % 64) :: b64Char (n % 64) :: base64encode rest
  | [a, b] =>
    let n := a * 65536 + b * 256
    [b64Char (n >>> 18 % 64), b64Char (n >>> 12 % 64), b64Char (n >>> 6 % 64), 61]
  | [a] =>
    let n := a * 65536
    [b64Char (n >>> 18 % 64), b64Char (n >>> 12 % 64), 61, 61]
  | [] => []

/-- `LLAPI._create_hmac`: base64 of the HMAC-SHA256 of the canonical message
under the configured key. -/
def create_hmac (key msg : List Nat) : List Nat :=
  base64encode (hmacSha256 key msg)

/-! ### JSON documents

The configuration files and error bodies the claims exercise are flat JSON
documents (objects/arrays of scalars), modelled here to depth one.  JSON
numbers are restricted to integers. -/

/-- A scalar JSON value. -/
inductive JLeaf where
  | jnull
  | jbool (b : Bool)
  | jnum (n : Int)
  | jstr (s : String)
deriving DecidableEq, Repr

/-- A JSON document of depth at most one (all the configuration files and
response bodies relevant to the claims). -/
inductive JVal where
  | leaf (l : JLeaf)
  | jarr (xs : List JLeaf)
  | jobj (fields : List (String × JLeaf))
deriving DecidableEq, Repr

/-- Python `str()` of a scalar JSON value (assuming the string contains no
quotes or backslashes, which is all the claims need). -/
def JLeaf.pyRepr : JLeaf → String
  | .jnull => "None"
  | .jbool true => "True"
  | .jbool false => "False"
  | .jnum n => toString n
  | .jstr s => "'" ++ s ++ "'"

/-- Python `str()` of a parsed JSON document, as interpolated into error
messages (`f"... {e}"`). -/
def JVal.pyRepr : JVal → String
  | .leaf (.jstr s) => s
  | .leaf l => l.pyRepr
  | .jarr xs => "[" ++ String.intercalate ", " (xs.map JLeaf.pyRepr) ++ "]"
  | .jobj fs =>
    "\x7b" ++
      String.intercalate ", " (fs.map fun p => "'" ++ p.1 ++ "': " ++ p.2.pyRepr)
      ++ "\x7d"

/-- Lookup in a decoded JSON object (`dict` built by `json.load`; duplicate
keys keep the last occurrence). -/
def jlookup (fields : List (String × JLeaf)) (k : String) : Option JLeaf :=
  (fields.reverse.find? fun p => p.1 = k).map fun p => p.2

/-! ### Python string helpers

Lean's built-in `String.trim`/`String.toUpper` do not evaluate inside the
kernel, so the Python operations are modelled directly on the char list. -/

/-- Python `str.strip()` whitespace test (ASCII part). -/
def isSpaceChar (c : Char) : Bool := c.toNat = 32 || (9 ≤ c.toNat && c.toNat ≤ 13)

/-- Python `str.strip()`. -/
def pyStrip (s : String) : String :=
  ⟨((s.data.dropWhile isSpaceChar).reverse.dropWhile isSpaceChar).reverse⟩

/-- Python `str.upper()` on ASCII strings (HTTP method names). -/
def pyUpper (s : String) : String :=
  ⟨s.data.map fun c =>
    if 97 ≤ c.toNat && c.toNat ≤ 122 then Char.ofNat (c.toNat - 32) else c⟩

/-! ### Configuration files (`parse_keyfile`, `parse_dashboard_config`)

File I/O is modelled by passing the file's decoded content: `none` stands for
"the file could not be opened or did not parse as JSON" (the first `try` block
in each parser), `some j` for a successfully decoded document `j`.  Errors are
the exception message strings the Python code raises. -/

/-- `LLAPI.parse_keyfile`.  Returns the stripped email and the stripped,
UTF-8-encoded key.  The Python message for a read/decode failure interpolates
the underlying exception after the path; `readErr` stands for that text. -/
def parse_keyfile (key_file_path : String) (content : Option JVal)
    (readErr : String := "") : Except String (String × List Nat) :=
  match content with
  | none => .error ("Unable to read key file: " ++ key_file_path ++ "\n" ++ readErr)
  | some j =>
    match j with
    | .jobj fields =>
      match jlookup fields "email", jlookup fields "key" with
      | some (.jstr e), some (.jstr k) =>
        .ok (pyStrip e, strBytes (pyStrip k))
      | _, _ => .error "Invalid or missing data in key file"
    | _ => .error "Invalid or missing data in key file"

/-- `LLAPI.parse_dashboard_config`.  Requires a `product` string field;
`folder` is optional.  A missing or non-string `product` (or a non-object
document) is caught and re-raised with the "Invalid or missing data" message
(whose `{e}` interpolation is abbreviated here); a present but non-string
`folder` raises an uncaught `AttributeError` from `.strip()`. -/
def parse_dashboard_config (dashboard_config_path : String)
    (content : Option JVal) (readErr : String := "") :
    Except String (Option String × Option String) :=
  match content with
  | none =>
    .error ("Unable to read dashboard config: " ++ dashboard_config_path ++
      ": " ++ readErr)
  | some j =>
    match j with
    | .jobj fields =>
      match jlookup fields "product" with
      | some (.jstr p) =>
        match jlookup fields "folder" with
        | some (.jstr f) => .ok (some (pyStrip p), some (pyStrip f))
        | some _ => .error "AttributeError: strip"
        | none => .ok (some (pyStrip p), none)
      | _ => .error "Invalid or missing data in dashboard config: "
    | _ => .error "Invalid or missing data in dashboard config: "

/-! ### Client configuration state (`LLAPI`)

The mutable `LLAPI` object is modelled as an explicit state record threaded
through `configure`, `_prepare_request`, and `_do_api_call`.  A `none` field is
Python `None` ("unset").  `configure` returns the state as left by the call
*together with* the raised exception message, if any — a Python exception
leaves the partially-mutated object behind, and that partial state is what the
claims about readiness staleness are about. -/

/-- A `verify_cert` setting: a boolean or a CA-bundle path. -/
inductive VerifySetting where
  | vbool (b : Bool)
  | vpath (s : String)
deriving DecidableEq, Repr

/-- The fields of the shared `LLAPI` object. -/
structure LLAPIState where
  email : Option String
  key : Option (List Nat)
  url : Option String
  product_token : Option String
  folder_token : Option String
  verify_cert : Option VerifySetting
  dry_run : Option Bool
  log_level : String
  configured : Bool
deriving DecidableEq, Repr

/-- A fresh `LLAPI` object just before its `__init__` runs `configure`:
every field is `None`.  (In Python the `configured` attribute does not exist
yet at that point; it is materialised as `false`, which `configure`
overwrites on every non-raising call.) -/
def initialState : LLAPIState :=
  { email := none, key := none, url := none, product_token := none,
    folder_token := none, verify_cert := none, dry_run := none,
    log_level := "WARNING", configured := false }

/-- The arguments of one `configure` call.  File-path arguments carry the
path together with the decoded content of the file at that path (`none` =
unreadable/undecodable), since file I/O is outside the embedding. -/
structure ConfigureArgs where
  key_file : Option (String × Option JVal)
  dashboard_config : Option (String × Option JVal)
  url : Option String
  verify_cert : Option VerifySetting
  dry_run : Option Bool
  log_level : Option String
deriving Repr

/-- A `configure` call with no arguments supplied. -/
def noArgs : ConfigureArgs :=
  { key_file := none, dashboard_config := none, url := none,
    verify_cert := none, dry_run := none, log_level := none }

/-- `email`, `key` and `url` are all present (`None in [...]` is false): the
predicate `configure` stores into `self.configured`. -/
def requiredPresent (s : LLAPIState) : Bool :=
  s.email.isSome && s.key.isSome && s.url.isSome

/-- `configure`, statement 1: `if key_file_path: self.email, self.key =
self.parse_keyfile(key_file_path)`.  The truthiness test skips `None` and the
empty path alike; a parse exception leaves the state untouched. -/
def applyKeyfileStep (kf : Option (String × Option JVal)) (s : LLAPIState) :
    Except (LLAPIState × String) LLAPIState :=
  match kf with
  | some (p, c) =>
    if p = "" then .ok s
    else
      match parse_keyfile p c "" with
      | .error e => .error (s, e)
      | .ok (em, k) => .ok { s with email := some em, key := some k }
  | none => .ok s

/-- `configure`, statement 2: `if dashboard_config_path: ...` — stores the
`product_token` and `folder_token` of the parsed dashboard config. -/
def applyDashboardStep (dc : Option (String × Option JVal)) (s : LLAPIState) :
    Except (LLAPIState × String) LLAPIState :=
  match dc with
  | some (p, c) =>
    if p = "" then .ok s
    else
      match parse_dashboard_config p c "" with
      | .error e => .error (s, e)
      | .ok (pt, ft) => .ok { s with product_token := pt, folder_token := ft }
  | none => .ok s

/-- `configure`, statements 3–6: the `url`, `dry_run`, `verify_cert` and
`log_level` arguments, each applied only when not `None`. -/
def applySimpleFields (a : ConfigureArgs) (s : LLAPIState) : LLAPIState :=
  let s3 := match a.url with
    | some u => { s with url := some u }
    | none => s
  let s4 := match a.dry_run with
    | some d => { s3 with dry_run := some d }
    | none => s3
  let s5 := match a.verify_cert with
    | some v => { s4 with verify_cert := some v }
    | none => s4
  match a.log_level with
  | some l => { s5 with log_level := l }
  | none => s5

/-- `LLAPI.configure`.  Returns the state after the call and the exception
message if one was raised.  Mirrors the Python statement order: key file,
dashboard config, `url`, `dry_run`, `verify_cert`, `log_level`, and finally
the recomputation of `self.configured` — which is therefore *skipped* when a
file parse raises. -/
def configure (a : ConfigureArgs) (s : LLAPIState) : LLAPIState × Option String :=
  match applyKeyfileStep a.key_file s with
  | .error (s', e) => (s', some e)
  | .ok s1 =>
    match applyDashboardStep a.dashboard_config s1 with
    | .error (s', e) => (s', some e)
    | .ok s2 =>
      let s6 := applySimpleFields a s2
      ({ s6 with configured := requiredPresent s6 }, none)

/-- `LLAPI.__init__` with its default arguments:
`configure` on a fresh object with `url='https://linuxlink.timesys.com'`,
`verify_cert=True`, `dry_run=False`, `log_level='WARNING'`. -/
def LLAPI.new (key_file dashboard_config : Option (String × Option JVal)) :
    LLAPIState × Option String :=
  configure
    { key_file := key_file, dashboard_config := dashboard_config,
      url := some "https://linuxlink.timesys.com",
      verify_cert := some (.vbool true), dry_run := some false,
      log_level := some "WARNING" }
    initialState

/-! ### Request construction (`LLAPI._prepare_request`) -/

/-- Python `dict` assignment `d[k] = v`: overwrite the value at an existing
key in place, or append a new entry. -/
def dictSet (d : List (String × Value)) (k : String) (v : Value) :
    List (String × Value) :=
  if d.any fun p => p.1 = k then d.map fun p => if p.1 = k then (p.1, v) else p
  else d ++ [(k, v)]

/-- Python `dict` lookup `d.get(k)` (keys are unique in the dicts at play). -/
def dictGet : List (String × Value) → String → Option Value
  | [], _ => none
  | p :: ps, k => if p.1 = k then some p.2 else dictGet ps k

/-- Render the (pure-ASCII) output of `urlencode` as a string. -/
def asciiString (bs : List Nat) : String := ⟨bs.map Char.ofNat⟩

/-- The request dictionary built by `_prepare_request` and consumed by
`_do_api_call`. -/
structure RequestDescriptor where
  /-- The `X-Auth-Signature` header value (bytes of the base64 signature). -/
  sig_header : List Nat
  method : String
  url : String
  /-- The body parameter mapping; only present for POST. -/
  data : Option (List (String × Value))
  /-- The canonical message; only present in dry-run mode. -/
  hmac_msg : Option (List Nat)
deriving DecidableEq, Repr

/-- `LLAPI._prepare_request`.  Besides the descriptor, returns the parameter
mapping as the caller observes it after the call — the Python code mutates the
caller's `data_dict` in place (`data_dict['email'] = self.email`), and for
POST the descriptor's body aliases that same mapping.

The branch for a set `configured` flag with a missing required field is
unreachable through the class API (no operation ever resets `email`, `key` or
`url` to `None`, and the flag is only set when all three are present). -/
def prepare_request (s : LLAPIState) (method resource : String)
    (data_dict : Option (List (String × Value))) :
    Except String (RequestDescriptor × List (String × Value)) :=
  if !s.configured then .error "LLAPI object has not been configured."
  else
    match s.email, s.key, s.url with
    | some email, some key, some baseUrl =>
      let d := dictSet (data_dict.getD []) "email" (.scalar (.str email))
      let url := baseUrl ++ resource
      let msg := make_msg method resource d
      let sig := create_hmac key msg
      let hm := if s.dry_run = some true then some msg else none
      if pyUpper method ≠ "POST" then
        let args := urlencodeBytes (List.insertionSort ple d)
        .ok ({ sig_header := sig, method := pyUpper method,
               url := url ++ "?" ++ asciiString args,
               data := none, hmac_msg := hm }, d)
      else
        .ok ({ sig_header := sig, method := pyUpper method, url := url,
               data := some d, hmac_msg := hm }, d)
    | _, _, _ => .error "unreachable: configured without required fields"

/-! ### Transport execution (`LLAPI._do_api_call`)

The HTTP transport (`requests.request`) is external; it is modelled as an
oracle from the descriptor to a response.  A response records the status code,
the body bytes (`r.content`), and the result of `r.json()` (`none` = the body
does not parse as JSON).  Connection errors and timeouts are failures of the
oracle itself and are not needed by any claim. -/

/-- An HTTP response as `_do_api_call` observes it. -/
structure HttpResponse where
  status : Nat
  content : List Nat
  json : Option JVal
deriving DecidableEq, Repr

/-- A successful `_do_api_call` result: the echoed descriptor (dry run), the
raw body bytes, or the decoded JSON document. -/
inductive ApiResult where
  | dryRun (request : RequestDescriptor)
  | raw (content : List Nat)
  | jsonData (j : JVal)
deriving DecidableEq, Repr

/-- The error detail of a non-2xx translation: the body parsed as JSON when it
parses, the numeric status code otherwise (`except ValueError: e = r.status_code`). -/
def status_detail (r : HttpResponse) : String :=
  match r.json with
  | some j => j.pyRepr
  | none => toString r.status

/-- `requests.Response.raise_for_status` raises `HTTPError` exactly for
status codes in 400..599. -/
def raisesForStatus (status : Nat) : Bool := 400 ≤ status && status < 600

/-- `LLAPI._do_api_call`.  The configured-check and the dry-run echo happen
before any transport activity; the `{e}` interpolation in the JSON-decode
failure message is abbreviated. -/
def do_api_call (s : LLAPIState) (request : RequestDescriptor)
    (json_response : Bool) (transport : RequestDescriptor → HttpResponse) :
    Except String ApiResult :=
  if !s.configured then .error "LLAPI object is not configured properly"
  else if s.dry_run = some true then .ok (.dryRun request)
  else
    let r := transport request
    if raisesForStatus r.status then
      .error ("LinuxLink server returned an error: " ++ status_detail r)
    else if !json_response then .ok (.raw r.content)
    else
      match r.json with
      | some j => .ok (.jsonData j)
      | none => .error "_do_api_call: error parsing JSON response: "

/-- `LLAPI.GET`: prepare then execute.  (The other four verbs differ only in
the method string.) -/
def GET (s : LLAPIState) (resource : String)
    (data_dict : Option (List (String × Value))) (json_response : Bool)
    (transport : RequestDescriptor → HttpResponse) : Except String ApiResult :=
  match prepare_request s "GET" resource data_dict with
  | .error e => .error e
  | .ok (request, _) => do_api_call s request json_response transport

/-! ### Determinism of the sorts used by `_make_msg` -/

/-- Sorting parameter items is a function of the item multiset alone. -/
theorem sort_pair_eq_of_perm {d₁ d₂ : List (String × Value)}
    (h : d₁.Perm d₂) :
    List.insertionSort ple d₁ = List.insertionSort ple d₂ :=
  List.eq_of_perm_of_sorted
    ((List.perm_insertionSort ple d₁).trans
      (h.trans (List.perm_insertionSort ple d₂).symm))
    (List.sorted_insertionSort ple d₁) (List.sorted_insertionSort ple d₂)

/-- Sorting sequence elements is a function of the element multiset alone. -/
theorem sort_scalar_eq_of_perm {xs ys : List Scalar}
    (h : xs.Perm ys) :
    List.insertionSort sle xs = List.insertionSort sle ys :=
  List.eq_of_perm_of_sorted
    ((List.perm_insertionSort sle xs).trans
      (h.trans (List.perm_insertionSort sle ys).symm))
    (List.sorted_insertionSort sle xs) (List.sorted_insertionSort sle ys)

/-- `sort_sequences` on a (non-string) sequence sorts its elements. -/
theorem sort_sequences_seq (xs : List Scalar) :
    sort_sequences (.seq xs) = .seq (List.insertionSort sle xs) := rfl

/-- `sort_sequences` passes strings through unchanged. -/
theorem sort_sequences_str (s : String) :
    sort_sequences (.scalar (.str s)) = .scalar (.str s) := rfl

/-! ### Claims -/

/-- C2: the canonical message builder is a pure, deterministic function: for
every HTTP method, resource path, and pair of parameter mappings containing
the same key/value associations (regardless of insertion/iteration order), it
produces identical canonical message bytes. -/
theorem C2_make_msg_order_invariant (method resource : String)
    (d₁ d₂ : List (String × Value)) (h : d₁.Perm d₂) :
    make_msg method resource d₁ = make_msg method resource d₂ := by
  unfold make_msg
  rw [sort_pair_eq_of_perm (h.map _)]

/-- Witness for C2 at a concrete pair of reordered mappings. -/
theorem C2_witness :
    [("b", Value.scalar (.int 2)), ("a", Value.scalar (.str "x"))].Perm
      [("a", Value.scalar (.str "x")), ("b", Value.scalar (.int 2))] ∧
    make_msg "GET" "/r" [("b", Value.scalar (.int 2)), ("a", Value.scalar (.str "x"))] =
      make_msg "GET" "/r" [("a", Value.scalar (.str "x")), ("b", Value.scalar (.int 2))] :=
  ⟨by decide, C2_make_msg_order_invariant "GET" "/r" _ _ (by decide)⟩

/-- C3: in the canonical message, a sequence-valued (non-string) parameter
appears with its elements in ascending sorted order regardless of their input
order, while a string-valued parameter — although a Python `Sequence` — passes
through unchanged and is never sorted. -/
theorem C3_sequences_sorted_strings_unchanged (method resource k s : String)
    (xs xs' : List Scalar) (rest : List (String × Value)) (h : xs.Perm xs') :
    make_msg method resource ((k, .seq xs) :: rest) =
      make_msg method resource ((k, .seq xs') :: rest) ∧
    sort_sequences (.seq xs) = .seq (List.insertionSort sle xs) ∧
    List.Sorted sle (List.insertionSort sle xs) ∧
    (List.insertionSort sle xs).Perm xs ∧
    (Value.scalar (.str s)).isSequence = true ∧
    sort_sequences (.scalar (.str s)) = .scalar (.str s) := by
  refine ⟨?_, rfl, List.sorted_insertionSort sle xs,
    List.perm_insertionSort sle xs, rfl, rfl⟩
  unfold make_msg
  simp only [List.map_cons, sort_sequences_seq, sort_scalar_eq_of_perm h]

/-- Witness for C3 at a concrete reordered sequence value. -/
theorem C3_witness :
    ([Scalar.int 3, Scalar.int 1].Perm [Scalar.int 1, Scalar.int 3]) ∧
    make_msg "GET" "/r" [("ids", .seq [Scalar.int 3, Scalar.int 1])] =
      make_msg "GET" "/r" [("ids", .seq [Scalar.int 1, Scalar.int 3])] :=
  ⟨by decide,
    (C3_sequences_sorted_strings_unchanged "GET" "/r" "ids" "" _ _ [] (by decide)).1⟩

/-! #### Structural lemmas about `configure` -/

theorem applyKeyfileStep_error {kf : Option (String × Option JVal)}
    {s s' : LLAPIState} {e : String}
    (h : applyKeyfileStep kf s = .error (s', e)) : s' = s := by
  unfold applyKeyfileStep at h
  split at h
  · split at h
    · simp at h
    · split at h
      · simp_all
      · simp at h
  · simp at h

theorem applyKeyfileStep_ok {kf : Option (String × Option JVal)}
    {s s1 : LLAPIState} (h : applyKeyfileStep kf s = .ok s1) :
    s1.url = s.url ∧ s1.configured = s.configured ∧
    (s.email.isSome = true → s1.email.isSome = true) ∧
    (s.key.isSome = true → s1.key.isSome = true) := by
  unfold applyKeyfileStep at h
  split at h
  · split at h
    · simp_all
    · split at h
      · simp at h
      · simp at h
        subst h
        simp
  · simp_all

theorem applyDashboardStep_error {dc : Option (String × Option JVal)}
    {s s' : LLAPIState} {e : String}
    (h : applyDashboardStep dc s = .error (s', e)) : s' = s := by
  unfold applyDashboardStep at h
  split at h
  · split at h
    · simp at h
    · split at h
      · simp_all
      · simp at h
  · simp at h

theorem applyDashboardStep_ok {dc : Option (String × Option JVal)}
    {s s1 : LLAPIState} (h : applyDashboardStep dc s = .ok s1) :
    s1.email = s.email ∧ s1.key = s.key ∧ s1.url = s.url ∧
    s1.configured = s.configured := by
  unfold applyDashboardStep at h
  split at h
  · split at h
    · simp_all
    · split at h
      · simp at h
      · simp at h; subst h; simp
  · simp_all

theorem applySimpleFields_fields (a : ConfigureArgs) (s : LLAPIState) :
    (applySimpleFields a s).email = s.email ∧
    (applySimpleFields a s).key = s.key ∧
    (applySimpleFields a s).configured = s.configured ∧
    (s.url.isSome = true → (applySimpleFields a s).url.isSome = true) := by
  unfold applySimpleFields
  rcases a.url with _ | u <;> rcases a.dry_run with _ | d <;>
    rcases a.verify_cert with _ | v <;> rcases a.log_level with _ | l <;> simp

/-- A `configure` call that raises no exception stores exactly the
required-fields predicate into `configured`. -/
theorem configure_ok_flag {a : ConfigureArgs} {s s' : LLAPIState}
    (h : configure a s = (s', none)) :
    s'.configured = requiredPresent s' := by
  unfold configure at h
  rcases h1 : applyKeyfileStep a.key_file s with ⟨s₀, e⟩ | s1 <;>
    rw [h1] at h <;> simp only [] at h
  · simp at h
  · rcases h2 : applyDashboardStep a.dashboard_config s1 with ⟨s₀, e⟩ | s2 <;>
      rw [h2] at h <;> simp only [] at h
    · simp at h
    · simp only [Prod.mk.injEq] at h
      obtain ⟨hs, -⟩ := h
      subst hs
      simp [requiredPresent]

/-- A `configure` call that raises leaves `configured` (and `url`) untouched,
and can only have added `email`/`key`. -/
theorem configure_err_frame {a : ConfigureArgs} {s s' : LLAPIState} {e : String}
    (h : configure a s = (s', some e)) :
    s'.configured = s.configured ∧ s'.url = s.url ∧
    (s.email.isSome = true → s'.email.isSome = true) ∧
    (s.key.isSome = true → s'.key.isSome = true) := by
  unfold configure at h
  rcases h1 : applyKeyfileStep a.key_file s with ⟨s₀, e₀⟩ | s1 <;>
    rw [h1] at h <;> simp only [] at h
  · simp only [Prod.mk.injEq, Option.some.injEq] at h
    obtain ⟨hs, -⟩ := h
    subst hs
    rw [applyKeyfileStep_error h1]
    simp
  · rcases h2 : applyDashboardStep a.dashboard_config s1 with ⟨s₀, e₀⟩ | s2 <;>
      rw [h2] at h <;> simp only [] at h
    · simp only [Prod.mk.injEq, Option.some.injEq] at h
      obtain ⟨hs, -⟩ := h
      subst hs
      rw [applyDashboardStep_error h2]
      obtain ⟨hu, hc, he, hk⟩ := applyKeyfileStep_ok h1
      exact ⟨hc, hu, he, hk⟩
    · simp at h

/-- A `configure` call that raises no exception can only grow the set of
present required fields. -/
theorem configure_ok_required {a : ConfigureArgs} {s s' : LLAPIState}
    (h : configure a s = (s', none)) (hr : requiredPresent s = true) :
    requiredPresent s' = true := by
  simp only [requiredPresent, Bool.and_eq_true] at hr
  obtain ⟨⟨he, hk⟩, hu⟩ := hr
  unfold configure at h
  rcases h1 : applyKeyfileStep a.key_file s with ⟨s₀, e⟩ | s1 <;>
    rw [h1] at h <;> simp only [] at h
  · simp at h
  · rcases h2 : applyDashboardStep a.dashboard_config s1 with ⟨s₀, e⟩ | s2 <;>
      rw [h2] at h <;> simp only [] at h
    · simp at h
    · simp only [Prod.mk.injEq] at h
      obtain ⟨hs, -⟩ := h
      subst hs
      obtain ⟨hu1, -, he1, hk1⟩ := applyKeyfileStep_ok h1
      obtain ⟨he2, hk2, hu2, -⟩ := applyDashboardStep_ok h2
      obtain ⟨he3, hk3, -, hu3⟩ := applySimpleFields_fields a s2
      simp only [requiredPresent]
      simp only [he3, he2, hk3, hk2, Bool.and_eq_true]
      refine ⟨⟨he1 he, hk1 hk⟩, hu3 ?_⟩
      rw [hu2, hu1]
      exact hu

/-- A valid key file document for the scenarios. -/
def goodKeyfile : JVal := .jobj [("email", .jstr "a@b.com"), ("key", .jstr "secret")]

/-- A state with only the base URL configured. -/
def urlOnlyState : LLAPIState :=
  (configure { noArgs with url := some "https://example.test" } initialState).1

/-- A `configure` call supplying a valid key file and an unreadable dashboard
config file. -/
def c4Args : ConfigureArgs :=
  { noArgs with key_file := some ("linuxlink_key", some goodKeyfile),
                dashboard_config := some ("dashboard_config", none) }

/-- C4 as stated is false: a `configure` call on a URL-only state that applies
a valid key file and then fails to parse the dashboard config raises, leaves
`email`, `key` and `url` all present, yet leaves the stored `configured` flag
`false` — stale with respect to the required-fields predicate. -/
theorem C4_counterexample :
    ((configure c4Args urlOnlyState).2).isSome = true ∧
    requiredPresent (configure c4Args urlOnlyState).1 = true ∧
    (configure c4Args urlOnlyState).1.configured = false := by decide

/-- C4 amended: after every `configure` invocation that completes without
raising, the stored `configured` flag equals the predicate "email, key and url
are all present"; an invocation that raises partway leaves the flag unchanged
from before the call, which can be stale when the key file was applied before
the failure. -/
theorem C4_configured_flag (a : ConfigureArgs) (s : LLAPIState) :
    ((configure a s).2 = none →
      (configure a s).1.configured = requiredPresent (configure a s).1) ∧
    (∀ e, (configure a s).2 = some e →
      (configure a s).1.configured = s.configured) := by
  constructor
  · intro h
    rcases hc : configure a s with ⟨s', r⟩
    rw [hc] at h
    simp at h
    subst h
    exact configure_ok_flag hc
  · intro e h
    rcases hc : configure a s with ⟨s', r⟩
    rw [hc] at h
    simp at h
    subst h
    exact (configure_err_frame hc).1

/-- Witness for C4 (amended) at a concrete call. -/
theorem C4_witness :
    (configure noArgs urlOnlyState).1.configured =
      requiredPresent (configure noArgs urlOnlyState).1 :=
  (C4_configured_flag noArgs urlOnlyState).1 (by decide)

/-- C5: readiness is false while any of email, key, or url is absent; after a
non-raising `configure` it is true exactly when all three are present; and
once true (with the fields actually present, as on every reachable state) it
remains true across any subsequent `configure` call. -/
theorem C5_readiness (a : ConfigureArgs) (s : LLAPIState) :
    ((configure a s).2 = none →
      ((configure a s).1.configured = true ↔
        requiredPresent (configure a s).1 = true)) ∧
    (s.configured = true → requiredPresent s = true →
      (configure a s).1.configured = true) := by
  constructor
  · intro h
    rcases hc : configure a s with ⟨s', r⟩
    rw [hc] at h
    simp at h
    subst h
    show s'.configured = true ↔ requiredPresent s' = true
    rw [configure_ok_flag hc]
  · intro hcfg hreq
    rcases hc : configure a s with ⟨s', r⟩
    rcases r with _ | e
    · show s'.configured = true
      rw [configure_ok_flag hc]
      exact configure_ok_required hc hreq
    · show s'.configured = true
      rw [(configure_err_frame hc).1]
      exact hcfg

/-- Witness for C5: supplying the key file and URL to a fresh client makes
readiness true, and a later argument-free `configure` keeps it true. -/
theorem C5_witness :
    (configure { noArgs with key_file := some ("linuxlink_key", some goodKeyfile),
                             url := some "https://example.test" }
        initialState).1.configured = true :=
  ((C5_readiness _ initialState).1 (by decide)).mpr (by decide)

/-! #### Structural lemmas about `_prepare_request` and Python dicts -/

/-- Shape of every successful `_prepare_request` result: the caller's mapping
with the configured email written in, the dry-run-gated canonical message, and
body-vs-query placement decided by the upper-cased method. -/
theorem prepare_request_ok {s : LLAPIState} {method resource : String}
    {d : Option (List (String × Value))} {desc : RequestDescriptor}
    {d' : List (String × Value)}
    (h : prepare_request s method resource d = .ok (desc, d')) :
    ∃ em, s.email = some em ∧
      d' = dictSet (d.getD []) "email" (.scalar (.str em)) ∧
      desc.hmac_msg = (if s.dry_run = some true
        then some (make_msg method resource d') else none) ∧
      (pyUpper method = "POST" → desc.data = some d') ∧
      (pyUpper method ≠ "POST" → desc.data = none) := by
  unfold prepare_request at h
  split at h
  · simp at h
  · rcases he : s.email with _ | em <;> rw [he] at h
    · simp at h
    · rcases hk : s.key with _ | key <;> rw [hk] at h
      · simp at h
      · rcases hu : s.url with _ | baseUrl <;> rw [hu] at h
        · simp at h
        · simp only [] at h
          refine ⟨em, rfl, ?_⟩
          split at h
          · simp only [Except.ok.injEq, Prod.mk.injEq] at h
            obtain ⟨hdesc, hd'⟩ := h
            subst hdesc
            subst hd'
            rename_i hpost
            simp [hpost]
          · simp only [Except.ok.injEq, Prod.mk.injEq] at h
            obtain ⟨hdesc, hd'⟩ := h
            subst hdesc
            subst hd'
            rename_i hpost
            simp only [ne_eq, not_not] at hpost
            simp [hpost]

theorem dictGet_set_map {d : List (String × Value)} {k : String} {v : Value}
    (h : (d.any fun p => p.1 = k) = true) :
    dictGet (d.map fun p => if p.1 = k then (p.1, v) else p) k = some v := by
  induction d with
  | nil => simp at h
  | cons p ps ih =>
    by_cases hp : p.1 = k
    · simp [dictGet, hp]
    · simp only [List.any_cons, Bool.or_eq_true, decide_eq_true_eq] at h
      rcases h with h | h
      · exact absurd h hp
      · simp [dictGet, hp, ih h]

theorem dictGet_none_of_not_any {d : List (String × Value)} {k : String}
    (h : (d.any fun p => p.1 = k) = false) : dictGet d k = none := by
  induction d with
  | nil => rfl
  | cons p ps ih =>
    simp only [List.any_cons, Bool.or_eq_false_iff, decide_eq_false_iff_not] at h
    simp [dictGet, h.1, ih h.2]

theorem dictGet_append_one {d : List (String × Value)} {k : String} {v : Value}
    (h : dictGet d k = none) : dictGet (d ++ [(k, v)]) k = some v := by
  induction d with
  | nil => simp [dictGet]
  | cons p ps ih =>
    by_cases hp : p.1 = k
    · simp [dictGet, hp] at h
    · simp only [dictGet, hp, if_neg hp] at h ⊢
      simp [List.cons_append, dictGet, hp]
      exact ih h

/-- `d[k] = v` makes a later `d.get(k)` return `v`, whether or not `k` was
already a key. -/
theorem dictGet_dictSet (d : List (String × Value)) (k : String) (v : Value) :
    dictGet (dictSet d k v) k = some v := by
  unfold dictSet
  by_cases h : (d.any fun p => p.1 = k) = true
  · simp only [h, if_true]
    exact dictGet_set_map h
  · have h2 : (d.any fun p => p.1 = k) = false := Bool.eq_false_iff.mpr h
    simp only [h2, Bool.false_eq_true, if_false]
    exact dictGet_append_one (dictGet_none_of_not_any h2)

deriving instance DecidableEq for Except

/-- A transport oracle whose answers no claim depends on. -/
def nullTransport : RequestDescriptor → HttpResponse :=
  fun _ => { status := 200, content := [], json := none }

/-- An arbitrary request dictionary for exercising `_do_api_call`. -/
def dummyReq : RequestDescriptor :=
  { sig_header := [], method := "GET", url := "", data := none, hmac_msg := none }

/-- C6: on every configuration whose readiness flag is false, request
construction and transport dispatch both fail at once with the respective
not-configured message, and the transport oracle is never consulted (the
execute result is the same for any two transports). -/
theorem C6_not_configured_fail_fast (s : LLAPIState) (method resource : String)
    (d : Option (List (String × Value))) (req : RequestDescriptor) (jr : Bool)
    (t t' : RequestDescriptor → HttpResponse) (h : s.configured = false) :
    prepare_request s method resource d =
      .error "LLAPI object has not been configured." ∧
    do_api_call s req jr t = .error "LLAPI object is not configured properly" ∧
    do_api_call s req jr t = do_api_call s req jr t' := by
  refine ⟨?_, ?_, ?_⟩ <;> simp [prepare_request, do_api_call, h]

/-- Witness for C6 on the fresh (never-configured) state. -/
theorem C6_witness :
    initialState.configured = false ∧
    prepare_request initialState "GET" "/r" none =
      .error "LLAPI object has not been configured." ∧
    do_api_call initialState dummyReq true nullTransport =
      .error "LLAPI object is not configured properly" :=
  ⟨by decide,
   (C6_not_configured_fail_fast initialState "GET" "/r" none dummyReq true
      nullTransport nullTransport (by decide)).1,
   (C6_not_configured_fail_fast initialState "GET" "/r" none dummyReq true
      nullTransport nullTransport (by decide)).2.1⟩

/-- C7: with dry-run active (and the client configured), execute consults no
transport and returns exactly the descriptor it was given; and a prepared
descriptor carries the canonical message bytes if and only if dry-run was
active at preparation time (in which case it is exactly the canonical
message of the augmented mapping). -/
theorem C7_dry_run_semantics (s s' : LLAPIState) (req desc : RequestDescriptor)
    (jr : Bool) (t t' : RequestDescriptor → HttpResponse)
    (method resource : String) (d : Option (List (String × Value)))
    (d' : List (String × Value))
    (hc : s.configured = true) (hd : s.dry_run = some true)
    (hp : prepare_request s' method resource d = .ok (desc, d')) :
    do_api_call s req jr t = .ok (.dryRun req) ∧
    do_api_call s req jr t = do_api_call s req jr t' ∧
    (desc.hmac_msg.isSome = true ↔ s'.dry_run = some true) ∧
    (s'.dry_run = some true →
      desc.hmac_msg = some (make_msg method resource d')) := by
  obtain ⟨em, -, -, hm, -, -⟩ := prepare_request_ok hp
  refine ⟨by simp [do_api_call, hc, hd], by simp [do_api_call, hc, hd], ?_, ?_⟩
  · rw [hm]
    by_cases hdr : s'.dry_run = some true <;> simp [hdr]
  · intro hdr
    rw [hm, if_pos hdr]

/-- The configured state of the running example: email `a@b.com`, key
`secret`, base URL `https://example.test`. -/
def c1Args : ConfigureArgs :=
  { noArgs with key_file := some ("linuxlink_key", some goodKeyfile),
                url := some "https://example.test" }

/-- The state after the example `configure` call. -/
def c1State : LLAPIState := (configure c1Args initialState).1

/-- The example state with dry-run switched on by a further partial
`configure`. -/
def dryState : LLAPIState :=
  (configure { noArgs with dry_run := some true } c1State).1

/-- The descriptor `_prepare_request` builds for `GET /r` on `dryState`. -/
def c7Desc : RequestDescriptor :=
  { sig_header := strBytes "zEzTKeCA+6EB+y6CcUtGpV9fHN6TdIRBkV+BpZcM8Aw=",
    method := "GET", url := "https://example.test/r?email=a%40b.com",
    data := none, hmac_msg := some (strBytes "GET/remail=a@b.com") }

/-- The post-call parameter mapping for `GET /r` with no caller parameters. -/
def emailOnlyDict : List (String × Value) := [("email", .scalar (.str "a@b.com"))]

set_option maxRecDepth 40000 in
/-- Witness for C7 on `dryState`. -/
theorem C7_witness :
    do_api_call dryState dummyReq true nullTransport = .ok (.dryRun dummyReq) ∧
    (c7Desc.hmac_msg.isSome = true ↔ dryState.dry_run = some true) :=
  ⟨(C7_dry_run_semantics dryState dryState dummyReq c7Desc true nullTransport
      nullTransport "GET" "/r" none emailOnlyDict (by decide) (by decide)
      (by decide)).1,
   (C7_dry_run_semantics dryState dryState dummyReq c7Desc true nullTransport
      nullTransport "GET" "/r" none emailOnlyDict (by decide) (by decide)
      (by decide)).2.2.1⟩

/-- C10: `_prepare_request` mutates the caller's parameter mapping — the
configured email is stored under `"email"`, overwriting any caller-supplied
value — and for POST the descriptor's body is that same post-mutation mapping.
(In-place mutation of the Python dict is modelled by returning the mapping as
the caller observes it after the call; the descriptor body equals it.) -/
theorem C10_prepare_mutates_mapping (s : LLAPIState) (method resource : String)
    (d d' : List (String × Value)) (desc : RequestDescriptor) (em : String)
    (hem : s.email = some em)
    (h : prepare_request s method resource (some d) = .ok (desc, d')) :
    d' = dictSet d "email" (.scalar (.str em)) ∧
    dictGet d' "email" = some (.scalar (.str em)) ∧
    (pyUpper method = "POST" → desc.data = some d') := by
  obtain ⟨em', hem', hd', -, hpost, -⟩ := prepare_request_ok h
  rw [hem] at hem'
  injection hem' with hem'
  subst hem'
  simp only [Option.getD_some] at hd'
  refine ⟨hd', ?_, hpost⟩
  rw [hd']
  exact dictGet_dictSet d "email" _

/-- The descriptor `_prepare_request` builds for the C10 witness POST. -/
def c10Desc : RequestDescriptor :=
  { sig_header := strBytes "zVzT7d8y+kXfWp5z8oy9C0QEEOBjvkCzfVlFOsySyxg=",
    method := "POST", url := "https://example.test/r",
    data := some emailOnlyDict, hmac_msg := none }

set_option maxRecDepth 40000 in
/-- Witness for C10: a caller-supplied `"email"` entry is overwritten with the
configured address, and the POST body is the mutated mapping. -/
theorem C10_witness :
    emailOnlyDict = dictSet [("email", .scalar (.str "attacker@x"))] "email"
      (.scalar (.str "a@b.com")) ∧
    c10Desc.data = some emailOnlyDict :=
  ⟨(C10_prepare_mutates_mapping c1State "POST" "/r"
      [("email", .scalar (.str "attacker@x"))] emailOnlyDict c10Desc "a@b.com"
      (by decide) (by decide)).1,
   (C10_prepare_mutates_mapping c1State "POST" "/r"
      [("email", .scalar (.str "attacker@x"))] emailOnlyDict c10Desc "a@b.com"
      (by decide) (by decide)).2.2 (by decide)⟩

/-- The descriptor of the example `GET /api/v1/heartbeat` on `c1State`. -/
def c1Desc : RequestDescriptor :=
  { sig_header := strBytes "um5y1lTCrDq4a+rckd1M9LKU8CZkbLG3eJu1Ly10608=",
    method := "GET",
    url := "https://example.test/api/v1/heartbeat?email=a%40b.com",
    data := none, hmac_msg := none }

set_option maxRecDepth 40000 in
/-- C1 as stated is false: the example GET's query string does contain
`email=a%40b.com`, but its `X-Auth-Signature` value is *not*
`base64(HMAC_SHA256("secret", b"GET/api/v1/heartbeatemail=a%40b.com"))` —
`_make_msg` percent-decodes (`unquote_plus`) the encoded arguments before
signing, so the HMAC input is the decoded `b"GET/api/v1/heartbeatemail=a@b.com"`. -/
theorem C1_counterexample :
    prepare_request c1State "GET" "/api/v1/heartbeat" none =
      .ok (c1Desc, emailOnlyDict) ∧
    strBytes "email=a%40b.com" <:+: strBytes c1Desc.url ∧
    c1Desc.sig_header ≠
      create_hmac (strBytes "secret")
        (strBytes "GET/api/v1/heartbeatemail=a%40b.com") := by
  refine ⟨by decide, by decide, by decide⟩

set_option maxRecDepth 40000 in
/-- C1 amended: configuring with email `a@b.com`, key `secret`, and URL
`https://example.test`, then preparing `GET /api/v1/heartbeat`, yields a
descriptor whose URL query string contains `email=a%40b.com` and whose
`X-Auth-Signature` value equals
`base64(HMAC_SHA256("secret", b"GET/api/v1/heartbeatemail=a@b.com"))` —
the HMAC input being the percent-decoded canonical message. -/
theorem C1_example_scenario :
    (configure c1Args initialState).2 = none ∧
    c1State.email = some "a@b.com" ∧
    c1State.key = some (strBytes "secret") ∧
    c1State.url = some "https://example.test" ∧
    prepare_request c1State "GET" "/api/v1/heartbeat" none =
      .ok (c1Desc, emailOnlyDict) ∧
    strBytes "email=a%40b.com" <:+: strBytes c1Desc.url ∧
    c1Desc.sig_header =
      create_hmac (strBytes "secret")
        (strBytes "GET/api/v1/heartbeatemail=a@b.com") := by
  refine ⟨by decide, by decide, by decide, by decide, by decide, by decide,
    by decide⟩

/-- The example error response of C8: status 404 with JSON body
`{"error": "not found"}`. -/
def notFoundResponse : HttpResponse :=
  { status := 404, content := strBytes "\x7b\"error\": \"not found\"\x7d",
    json := some (.jobj [("error", .jstr "not found")]) }

/-- C8 as stated is false: `raise_for_status` raises only for statuses in
400..599, so execute does not fail on every non-2xx response — on a 304
response (non-2xx) with a raw-bytes result requested it returns the body
bytes as a success. -/
theorem C8_counterexample :
    (304 < 200 ∨ 300 ≤ 304) ∧
    raisesForStatus 304 = false ∧
    do_api_call c1State dummyReq false
      (fun _ => { status := 304, content := strBytes "x", json := none }) =
      .ok (.raw (strBytes "x")) := by
  refine ⟨by decide, by decide, by decide⟩

/-- C8 amended: for every response whose status `raise_for_status` treats as
an error (400..599), execute fails with the remote-error message whose detail
is the response body parsed as JSON when it parses, and the numeric status
code otherwise; non-2xx statuses below 400 are not translated. -/
theorem C8_error_translation (s : LLAPIState) (req : RequestDescriptor)
    (jr : Bool) (t : RequestDescriptor → HttpResponse)
    (hc : s.configured = true) (hd : ¬ s.dry_run = some true)
    (hs : raisesForStatus (t req).status = true) :
    do_api_call s req jr t =
      .error ("LinuxLink server returned an error: " ++ status_detail (t req)) ∧
    (∀ j, (t req).json = some j → status_detail (t req) = j.pyRepr) ∧
    ((t req).json = none → status_detail (t req) = toString (t req).status) := by
  refine ⟨?_, ?_, ?_⟩
  · simp [do_api_call, hc, hd, hs]
  · intro j hj
    simp [status_detail, hj]
  · intro hj
    simp [status_detail, hj]

/-- Witness for C8 (amended) on the spec's example: a 404 with JSON body
`{"error": "not found"}` fails with a `RemoteError` carrying that parsed
body. -/
theorem C8_witness :
    do_api_call c1State dummyReq true (fun _ => notFoundResponse) =
      .error ("LinuxLink server returned an error: " ++
        status_detail notFoundResponse) ∧
    status_detail notFoundResponse =
      JVal.pyRepr (.jobj [("error", .jstr "not found")]) ∧
    status_detail notFoundResponse = "\x7b'error': 'not found'\x7d" :=
  ⟨(C8_error_translation c1State dummyReq true (fun _ => notFoundResponse)
      (by decide) (by decide) (by decide)).1,
   (C8_error_translation c1State dummyReq true (fun _ => notFoundResponse)
      (by decide) (by decide) (by decide)).2.1 _ rfl,
   by decide⟩

theorem strBytes_append (a b : String) :
    strBytes (a ++ b) = strBytes a ++ strBytes b := by
  simp [strBytes, String.data_append]

/-- C9 as stated is false: a credential file that decodes to an object
missing the `key` field fails with the fixed message
`"Invalid or missing data in key file"`, which does not cite the file path. -/
theorem C9_counterexample :
    parse_keyfile "linuxlink_key" (some (.jobj [("email", .jstr "a@b.com")])) "" =
      .error "Invalid or missing data in key file" ∧
    ¬ (strBytes "linuxlink_key" <:+:
        strBytes "Invalid or missing data in key file") := by
  refine ⟨by decide, by decide⟩

/-- C9 amended: parsing a credential file stores the whitespace-trimmed email
and (trimmed, UTF-8-encoded) key; a file that cannot be read or fails to
decode as JSON raises a message citing the path; a file that decodes but is
not an object with string `email` and `key` fields raises the fixed message
`"Invalid or missing data in key file"`, which does not mention the path. -/
theorem C9_keyfile_parsing (p e k readErr : String) (s : LLAPIState)
    (fields : List (String × JLeaf))
    (he : jlookup fields "email" = some (.jstr e))
    (hk : jlookup fields "key" = some (.jstr k)) (hp : p ≠ "") :
    parse_keyfile p (some (.jobj fields)) "" =
      .ok (pyStrip e, strBytes (pyStrip k)) ∧
    ((configure { noArgs with key_file := some (p, some (.jobj fields)) } s).1.email
        = some (pyStrip e) ∧
     (configure { noArgs with key_file := some (p, some (.jobj fields)) } s).1.key
        = some (strBytes (pyStrip k))) ∧
    (∃ msg, parse_keyfile p none readErr = .error msg ∧
      strBytes p <:+: strBytes msg) ∧
    (∀ c, parse_keyfile p (some c) readErr =
        .error "Invalid or missing data in key file" ∨
      ∃ em ky, parse_keyfile p (some c) readErr = .ok (em, ky)) := by
  have hparse : parse_keyfile p (some (.jobj fields)) "" =
      .ok (pyStrip e, strBytes (pyStrip k)) := by
    unfold parse_keyfile
    simp only [he, hk]
  refine ⟨hparse, ?_, ?_, ?_⟩
  · unfold configure applyKeyfileStep
    simp [noArgs, hp, hparse, applyDashboardStep, applySimpleFields]
  · refine ⟨"Unable to read key file: " ++ p ++ "\n" ++ readErr, rfl, ?_⟩
    refine ⟨strBytes "Unable to read key file: ", strBytes ("\n" ++ readErr), ?_⟩
    simp [strBytes_append]
  · intro c
    match c with
    | .leaf l => left; rfl
    | .jarr xs => left; rfl
    | .jobj fs =>
      rcases hle : jlookup fs "email" with _ | el <;>
        rcases hlk : jlookup fs "key" with _ | kl <;>
        [skip; skip; skip; rcases el with _ | b | n | es <;>
          rcases kl with _ | b' | n' | ks] <;>
      first
        | (left; (simp [parse_keyfile, hle, hlk]; done))
        | (right; exact ⟨pyStrip es, strBytes (pyStrip ks),
            by simp [parse_keyfile, hle, hlk]⟩)

/-- Witness for C9 (amended) on the example key file. -/
theorem C9_witness :
    parse_keyfile "linuxlink_key"
        (some (.jobj [("email", .jstr "a@b.com"), ("key", .jstr "secret")])) "" =
      .ok (pyStrip "a@b.com", strBytes (pyStrip "secret")) :=
  (C9_keyfile_parsing "linuxlink_key" "a@b.com" "secret" "" initialState
    [("email", .jstr "a@b.com"), ("key", .jstr "secret")]
    (by decide) (by decide) (by decide)).1

end Timesys
